import Mathlib

/-!
Shallow embedding of cameragrid.js (both revisions of the CameraGrid
component) and verification of the frozen claims about it.

JavaScript numbers are modelled as exact rationals.  The one transcendental
operation, Math.sqrt, is used only under Math.floor / Math.ceil, so it is
modelled exactly by the integer square-root helpers sqrtFloor / sqrtCeil
below (floor and ceiling of the real square root of a rational, computed
without leaving the rationals).
-/

namespace CameraGrid

/-- Which dimension binds the scale: the strings "width" / "height" in the
source. -/
inductive Axis where
  | width
  | height
deriving DecidableEq, Repr

/-- Floor of the real square root of a rational, as used by
Math.floor(Math.sqrt(x)) in calculateGrid_.  For q < 0 this returns 0
(the JavaScript code never reaches that case under positive inputs). -/
def sqrtFloor (q : ℚ) : ℕ :=
  Nat.sqrt (Int.floor q).toNat

/-- Ceiling of the real square root of a rational, as used by
Math.ceil(Math.sqrt(x)) in calculateGrid_. -/
def sqrtCeil (q : ℚ) : ℕ :=
  if q ≤ (sqrtFloor q : ℚ) ^ 2 then sqrtFloor q else sqrtFloor q + 1

/-- The candidate finally chosen by the selection loop of calculateGrid_:
the chosenWidth / chosenHeight / chosenConstraint variables. -/
structure GridChoice where
  gridWidthCells : ℕ
  gridHeightCells : ℕ
  constraint : Axis
deriving DecidableEq, Repr

/-- The loop state of calculateGrid_: minCells starts at Number.MAX_VALUE
(modelled as none, which no real cell count exceeds), maxScale at 0.0 and
the chosen candidate undefined (none). -/
structure SolveState where
  minCells : Option ℕ
  maxScale : ℚ
  chosen : Option GridChoice
deriving DecidableEq, Repr

/-- The object literal returned by calculateGrid_.  When no candidate is
feasible the chosen* variables are left undefined in the source, which is
modelled by chosen = none. -/
structure GridResult where
  chosen : Option GridChoice
  containerConstraint : Axis
  cellWidthPx : ℚ
  cellHeightPx : ℚ
deriving DecidableEq, Repr

/-- The scale and binding-dimension computation for one candidate inside the
loop of calculateGrid_ (widthScale / heightScale / scale / constraint). -/
def candScale (containerWidth containerHeight tileScaleWidth tileScaleHeight : ℚ)
    (g : ℕ × ℕ) : ℚ × Axis :=
  let widthScale := containerWidth / (g.1 : ℚ) / tileScaleWidth
  let heightScale := containerHeight / (g.2 : ℚ) / tileScaleHeight
  if widthScale < heightScale then (widthScale, Axis.width)
  else (heightScale, Axis.height)

/-- One iteration of the candidate loop of calculateGrid_. -/
def solveStep (containerWidth containerHeight tileScaleWidth tileScaleHeight : ℚ)
    (numTiles : ℕ) (st : SolveState) (g : ℕ × ℕ) : SolveState :=
  let numCells := g.1 * g.2
  if numCells < numTiles then
    -- Cannot fit all the tiles in (we have rounded down too far).
    st
  else
    let sc := candScale containerWidth containerHeight tileScaleWidth tileScaleHeight g
    if sc.1 < st.maxScale then
      -- This would make cells smaller than another viable solution.
      st
    else if sc.1 = st.maxScale ∧ st.minCells.any (fun m => m < numCells) then
      -- Same cell size as another viable solution, but ours has more cells.
      st
    else
      { minCells := some numCells, maxScale := sc.1,
        chosen := some ⟨g.1, g.2, sc.2⟩ }

/-- The three integer candidate shapes generated by calculateGrid_ from the
continuous ideal grid dimensions. -/
def gridOptions (containerWidth containerHeight tileScaleWidth tileScaleHeight : ℚ)
    (numTiles : ℕ) : List (ℕ × ℕ) :=
  let scaleFactor := (containerHeight / tileScaleHeight) / (containerWidth / tileScaleWidth)
  let gridHeightSq := scaleFactor * numTiles
  let gridWidthSq := (numTiles : ℚ) / scaleFactor
  [ (sqrtCeil gridWidthSq, sqrtFloor gridHeightSq),
    (sqrtFloor gridWidthSq, sqrtCeil gridHeightSq),
    (sqrtCeil gridWidthSq, sqrtCeil gridHeightSq) ]

/-- calculateGrid_ (identical in both source revisions). -/
def calculateGrid (containerWidth containerHeight tileScaleWidth tileScaleHeight : ℚ)
    (numTiles : ℕ) : GridResult :=
  let scaleFactor := (containerHeight / tileScaleHeight) / (containerWidth / tileScaleWidth)
  let st := (gridOptions containerWidth containerHeight tileScaleWidth tileScaleHeight
      numTiles).foldl
    (solveStep containerWidth containerHeight tileScaleWidth tileScaleHeight numTiles)
    ⟨none, 0, none⟩
  { chosen := st.chosen
    containerConstraint := if 1 < scaleFactor then Axis.width else Axis.height
    cellWidthPx := tileScaleWidth * st.maxScale
    cellHeightPx := tileScaleHeight * st.maxScale }

/-- findMinimumResolution_, first source revision: the loop with the
i + 1 < this.resolutions_.length guard, which returns the last entry
unconditionally.  An empty catalog returns undefined (none). -/
def findMinimumResolution : List (ℚ × ℚ) → ℚ → ℚ → Option (ℚ × ℚ)
  | [], _, _ => none
  | [r], _, _ => some r
  | r :: r2 :: rest, tileWidth, tileHeight =>
    if r.1 < tileWidth ∧ r.2 < tileHeight then
      findMinimumResolution (r2 :: rest) tileWidth tileHeight
    else
      some r

/-- The scan loop of findMinimumResolution_, second source revision: no
index guard, falls through when every entry is strictly smaller than the
target in both dimensions. -/
def findMinimumResolutionLoop : List (ℚ × ℚ) → ℚ → ℚ → Option (ℚ × ℚ)
  | [], _, _ => none
  | r :: rest, tileWidth, tileHeight =>
    if r.1 < tileWidth ∧ r.2 < tileHeight then
      findMinimumResolutionLoop rest tileWidth tileHeight
    else
      some r

/-- findMinimumResolution_, second source revision: after the loop falls
through it logs an upscaling warning and returns the last (largest)
catalog entry. -/
def findMinimumResolutionRev2 (resolutions : List (ℚ × ℚ)) (tileWidth tileHeight : ℚ) :
    Option (ℚ × ℚ) :=
  match findMinimumResolutionLoop resolutions tileWidth tileHeight with
  | some r => some r
  | none => resolutions.getLast?

/-- The default resolution catalog (defaultResolutions_, identical in both
revisions): ascending, all 4:3. -/
def defaultResolutions : List (ℚ × ℚ) :=
  [ (160, 120), (240, 180), (320, 240), (480, 360),
    (640, 480), (800, 600), (1024, 768), (1280, 960) ]

/-- The mutable view-state fields of the CameraGrid object.  The DOM cell
nodes themselves are external; selection and the cached layout and
resolution values are what the handlers read and write. -/
structure ViewState where
  selected : Option ℕ
  scanning : Bool
  imgWidthPx : ℚ
  imgHeightPx : ℚ
  constraint : Option Axis
  containerImgWidthPx : ℚ
  containerImgHeightPx : ℚ
  containerConstraint : Option Axis
  gridWidthCells : ℕ
  gridHeightCells : ℕ
deriving DecidableEq, Repr

/-- External side effects the handlers perform on the DOM / network
collaborators, in emission order. -/
inductive Effect where
  | removeFullScreenClass (index : ℕ)
  | addFullScreenClass (index : ℕ)
  | buildImage (index : ℕ)
  | buildImages
  | setUpscaleRule (constraint : Axis) (containerRule : Bool)
  | rebuildGrid
deriving DecidableEq, Repr

/-- The view state right after the constructor runs, before the initial
rebuildIfNeeded_ call (first revision: the pixel caches start at 0). -/
def initState : ViewState :=
  { selected := none
    scanning := false
    imgWidthPx := 0
    imgHeightPx := 0
    constraint := none
    containerImgWidthPx := 0
    containerImgHeightPx := 0
    containerConstraint := none
    gridWidthCells := 0
    gridHeightCells := 0 }

/-- setSelected_: toggles the selection and, when the full-screen and
grid-cell resolutions differ, re-requests the images of the demoted and
newly selected tiles. -/
def setSelected (st : ViewState) (index : ℕ) : ViewState × List Effect :=
  let (oldIndex, st1, effs1) :=
    if st.selected = some index then
      (st.selected, { st with selected := none },
        [Effect.removeFullScreenClass index])
    else
      match st.selected with
      | some j =>
        (some j, { st with selected := some index },
          [Effect.removeFullScreenClass j, Effect.addFullScreenClass index])
      | none =>
        (none, { st with selected := some index },
          [Effect.addFullScreenClass index])
  let effs2 :=
    if st.containerImgWidthPx ≠ st.imgWidthPx ∨ st.containerImgHeightPx ≠ st.imgHeightPx then
      -- Image stream should change when toggling full screen.
      (match oldIndex with
        | some j => [Effect.buildImage j]
        | none => []) ++
      (match st1.selected with
        | some j => [Effect.buildImage j]
        | none => [])
    else []
  (st1, effs1 ++ effs2)

/-- disableScanning_: stop scanning and refresh every image (they might all
be at a higher resolution than needed). -/
def disableScanning (st : ViewState) : ViewState × List Effect :=
  if st.scanning then
    ({ st with scanning := false }, [Effect.buildImages])
  else
    (st, [])

/-- setSelectedNoScan_: setSelected_ followed by disableScanning_. -/
def setSelectedNoScan (st : ViewState) (index : ℕ) : ViewState × List Effect :=
  let (st1, effs1) := setSelected st index
  let (st2, effs2) := disableScanning st1
  (st2, effs1 ++ effs2)

/-- scanLeft_: move the selection to the previous feed, circularly.  In the
source a null selection compares null > 0 as false, so it also lands on
the last cell. -/
def scanLeft (numTiles : ℕ) (st : ViewState) : ViewState × List Effect :=
  setSelected st
    (match st.selected with
      | some i => if 0 < i then i - 1 else numTiles - 1
      | none => numTiles - 1)

/-- scanRight_: move the selection to the next feed, circularly.  In the
source a null selection coerces to 0 in the addition. -/
def scanRight (numTiles : ℕ) (st : ViewState) : ViewState × List Effect :=
  setSelected st ((st.selected.getD 0 + 1) % numTiles)

/-- onKeyPress_ (character keys): digits, the s key and space. -/
def onKeyPress (numTiles : ℕ) (st : ViewState) (c : Char) : ViewState × List Effect :=
  if c = '1' ∨ c = '2' ∨ c = '3' ∨ c = '4' ∨ c = '5' ∨
      c = '6' ∨ c = '7' ∨ c = '8' ∨ c = '9' ∨ c = '0' then
    let index0 : ℤ := (c.toNat : ℤ) - 49
    let index : ℤ := if index0 = -1 then 10 else index0
    if index < (numTiles : ℤ) then
      setSelectedNoScan st index.toNat
    else
      (st, [])
  else if c = 's' then
    match st.selected with
    | some i =>
      if st.scanning then
        -- Toggle off.
        setSelectedNoScan st i
      else
        ({ st with scanning := true }, [])
    | none =>
      let st1 := { st with scanning := true }
      setSelected st1 0
  else if c = ' ' then
    ({ st with scanning := !st.scanning }, [])
  else
    (st, [])

/-- onKeyDown_ (special keys): Escape, Left arrow, Right arrow. -/
def onKeyDown (numTiles : ℕ) (st : ViewState) (keyCode : ℕ) : ViewState × List Effect :=
  if keyCode = 27 then
    match st.selected with
    | some i =>
      -- Toggle selected feed off.
      setSelectedNoScan st i
    | none => (st, [])
  else if keyCode = 37 then
    match st.selected with
    | some _ =>
      let (st1, effs1) := scanLeft numTiles st
      let (st2, effs2) := disableScanning st1
      (st2, effs1 ++ effs2)
    | none => (st, [])
  else if keyCode = 39 then
    match st.selected with
    | some _ =>
      let (st1, effs1) := scanRight numTiles st
      let (st2, effs2) := disableScanning st1
      (st2, effs1 ++ effs2)
    | none => (st, [])
  else
    (st, [])

/-- onScanTimer_: the periodic (3 second) scan tick. -/
def onScanTimer (numTiles : ℕ) (st : ViewState) : ViewState × List Effect :=
  if st.scanning && st.selected.isSome then
    scanRight numTiles st
  else
    (st, [])

/-- The resolution pair buildImage_ passes to the URL builder for a given
tile: the full-screen resolution while scanning or for the selected tile,
the grid-cell resolution otherwise. -/
def buildImageSize (st : ViewState) (index : ℕ) : ℚ × ℚ :=
  if st.scanning ∨ st.selected = some index then
    (st.containerImgWidthPx, st.containerImgHeightPx)
  else
    (st.imgWidthPx, st.imgHeightPx)

/-- The body of rebuildIfNeeded_ once the grid solve and the two resolution
lookups have produced defined values: five change-detection blocks, each
firing its side effect only when its derived quantity differs from the
cached one. -/
def rebuildCore (choice : GridChoice) (gridContainerConstraint : Axis)
    (resolution containerResolution : ℚ × ℚ) (st : ViewState) :
    ViewState × List Effect :=
  let st1 :=
    if some choice.constraint ≠ st.constraint then
      { st with constraint := some choice.constraint }
    else st
  let effs1 : List Effect :=
    if some choice.constraint ≠ st.constraint then
      [Effect.setUpscaleRule choice.constraint false]
    else []
  let st2 :=
    if some gridContainerConstraint ≠ st1.containerConstraint then
      { st1 with containerConstraint := some gridContainerConstraint }
    else st1
  let effs2 : List Effect :=
    if some gridContainerConstraint ≠ st1.containerConstraint then
      [Effect.setUpscaleRule gridContainerConstraint true]
    else []
  let st3 :=
    if resolution.1 ≠ st2.imgWidthPx ∨ resolution.2 ≠ st2.imgHeightPx then
      -- Need to recache images.
      { st2 with imgWidthPx := resolution.1, imgHeightPx := resolution.2 }
    else st2
  let effs3 : List Effect :=
    if resolution.1 ≠ st2.imgWidthPx ∨ resolution.2 ≠ st2.imgHeightPx then
      [Effect.buildImages]
    else []
  let st4 :=
    if containerResolution.1 ≠ st3.containerImgWidthPx ∨
        containerResolution.2 ≠ st3.containerImgHeightPx then
      { st3 with containerImgWidthPx := containerResolution.1,
                 containerImgHeightPx := containerResolution.2 }
    else st3
  let effs4 : List Effect :=
    if containerResolution.1 ≠ st3.containerImgWidthPx ∨
        containerResolution.2 ≠ st3.containerImgHeightPx then
      match st3.selected with
      | some i => [Effect.buildImage i]
      | none => []
    else []
  let st5 :=
    if choice.gridWidthCells ≠ st4.gridWidthCells ∨
        choice.gridHeightCells ≠ st4.gridHeightCells then
      { st4 with gridWidthCells := choice.gridWidthCells,
                 gridHeightCells := choice.gridHeightCells }
    else st4
  let effs5 : List Effect :=
    if choice.gridWidthCells ≠ st4.gridWidthCells ∨
        choice.gridHeightCells ≠ st4.gridHeightCells then
      [Effect.rebuildGrid]
    else []
  (st5, effs1 ++ effs2 ++ effs3 ++ effs4 ++ effs5)

/-- rebuildIfNeeded_: recompute the grid shape and the two resolutions and
run the change-detection blocks.  When the grid solve leaves its chosen
fields undefined or a resolution lookup returns undefined the source would
fault on member access; that is modelled as none. -/
def rebuildIfNeeded (resolutions : List (ℚ × ℚ)) (tileScaleWidth tileScaleHeight : ℚ)
    (numTiles : ℕ) (containerWidth containerHeight : ℚ) (st : ViewState) :
    Option (ViewState × List Effect) :=
  let grid := calculateGrid containerWidth containerHeight tileScaleWidth tileScaleHeight
    numTiles
  match grid.chosen,
      findMinimumResolution resolutions grid.cellWidthPx grid.cellHeightPx,
      findMinimumResolution resolutions containerWidth containerHeight with
  | some choice, some resolution, some containerResolution =>
    some (rebuildCore choice grid.containerConstraint resolution containerResolution st)
  | _, _, _ => none

/-- The discrete events delivered to the controller by its collaborators. -/
inductive Event where
  | keyPress (c : Char)
  | keyDown (keyCode : ℕ)
  | scanTimer
  | click (index : ℕ)
  | resize (containerWidth containerHeight : ℚ)
deriving DecidableEq, Repr

/-- Dispatch of one external event to the corresponding handler.  A click
event on a tile runs the bound setSelected_ listener. -/
def step (resolutions : List (ℚ × ℚ)) (tileScaleWidth tileScaleHeight : ℚ)
    (numTiles : ℕ) (st : ViewState) : Event → Option (ViewState × List Effect)
  | Event.keyPress c => some (onKeyPress numTiles st c)
  | Event.keyDown k => some (onKeyDown numTiles st k)
  | Event.scanTimer => some (onScanTimer numTiles st)
  | Event.click i => some (setSelected st i)
  | Event.resize w h =>
    rebuildIfNeeded resolutions tileScaleWidth tileScaleHeight numTiles w h st

/-- Click listeners exist only for actual cells, so a click event carries a
valid tile index; every other event may arrive at any time. -/
def eventOK (numTiles : ℕ) : Event → Prop
  | Event.click i => i < numTiles
  | _ => True

/-- The scale value the loop of calculateGrid_ computes for one candidate:
the binding (smaller) of widthScale and heightScale. -/
def scaleOf (containerWidth containerHeight tileScaleWidth tileScaleHeight : ℚ)
    (g : ℕ × ℕ) : ℚ :=
  (candScale containerWidth containerHeight tileScaleWidth tileScaleHeight g).1

/-- The candidates of a list that are feasible and tie with a given scale
and cell count; used to state which of several fully tied candidates the
loop of calculateGrid_ ends up keeping. -/
def tieFilter (containerWidth containerHeight tileScaleWidth tileScaleHeight : ℚ)
    (numTiles : ℕ) (s : ℚ) (m : ℕ) (l : List (ℕ × ℕ)) : List (ℕ × ℕ) :=
  l.filter (fun g => decide (numTiles ≤ g.1 * g.2) &&
    decide (scaleOf containerWidth containerHeight tileScaleWidth tileScaleHeight g = s) &&
    decide (g.1 * g.2 = m))

/-- Loop invariant for the candidate-selection loop of calculateGrid_ after
a prefix of the candidate list has been processed: either nothing feasible
has been seen and the state is untouched, or the state holds the best
candidate seen so far (maximal scale, then minimal cell count, the latest
seen among full ties). -/
def SolveInv (containerWidth containerHeight tileScaleWidth tileScaleHeight : ℚ)
    (numTiles : ℕ) (processed : List (ℕ × ℕ)) (st : SolveState) : Prop :=
  (st = ⟨none, 0, none⟩ ∧ ∀ g ∈ processed, ¬ numTiles ≤ g.1 * g.2) ∨
  (∃ w h, st.chosen = some ⟨w, h,
      (candScale containerWidth containerHeight tileScaleWidth tileScaleHeight (w, h)).2⟩ ∧
    st.minCells = some (w * h) ∧
    st.maxScale = scaleOf containerWidth containerHeight tileScaleWidth tileScaleHeight (w, h) ∧
    numTiles ≤ w * h ∧
    0 < st.maxScale ∧
    (∀ g ∈ processed, numTiles ≤ g.1 * g.2 →
      scaleOf containerWidth containerHeight tileScaleWidth tileScaleHeight g ≤ st.maxScale) ∧
    (∀ g ∈ processed, numTiles ≤ g.1 * g.2 →
      scaleOf containerWidth containerHeight tileScaleWidth tileScaleHeight g = st.maxScale →
      w * h ≤ g.1 * g.2) ∧
    (tieFilter containerWidth containerHeight tileScaleWidth tileScaleHeight numTiles
      st.maxScale (w * h) processed).getLast? = some (w, h))

/-!
Lemmas and claim theorems.
-/

/-- The ceiling square root dominates the radicand: q ≤ (sqrtCeil q)^2. -/
lemma le_sqrtCeil_sq (q : ℚ) : q ≤ (sqrtCeil q : ℚ) ^ 2 := by
  unfold sqrtCeil
  split
  · assumption
  · rename_i h
    have hfloor : q < (Int.floor q : ℚ) + 1 := Int.lt_floor_add_one q
    have htoNat : (Int.floor q : ℚ) ≤ ((Int.floor q).toNat : ℚ) := by
      exact_mod_cast Int.cast_le.mpr (Int.self_le_toNat (Int.floor q))
    have hsq : ((Int.floor q).toNat : ℚ) + 1 ≤ ((sqrtFloor q : ℚ) + 1) ^ 2 := by
      have := Nat.lt_succ_sqrt' (Int.floor q).toNat
      have hnat : (Int.floor q).toNat + 1 ≤ (Nat.sqrt (Int.floor q).toNat + 1) ^ 2 := this
      unfold sqrtFloor
      exact_mod_cast hnat
    push_cast
    nlinarith [hfloor, htoNat, hsq]

/-- The floor square root is dominated by the radicand when it is
nonnegative: (sqrtFloor q)^2 ≤ q for 0 ≤ q. -/
lemma sqrtFloor_sq_le (q : ℚ) (hq : 0 ≤ q) : (sqrtFloor q : ℚ) ^ 2 ≤ q := by
  unfold sqrtFloor
  have h1 : (Nat.sqrt (Int.floor q).toNat) ^ 2 ≤ (Int.floor q).toNat :=
    Nat.sqrt_le' _
  have h2 : ((Int.floor q).toNat : ℚ) ≤ q := by
    have h3 : ((Int.floor q).toNat : ℤ) = Int.floor q :=
      Int.toNat_of_nonneg (Int.le_floor.mpr (by exact_mod_cast hq))
    have h4 : ((Int.floor q) : ℚ) ≤ q := Int.floor_le q
    have h5 : ((Int.floor q).toNat : ℚ) = ((Int.floor q : ℤ) : ℚ) := by
      exact_mod_cast h3
    rw [h5]
    exact h4
  calc ((Nat.sqrt (Int.floor q).toNat : ℚ)) ^ 2
      = ((Nat.sqrt (Int.floor q).toNat ^ 2 : ℕ) : ℚ) := by push_cast; ring
    _ ≤ ((Int.floor q).toNat : ℚ) := by exact_mod_cast h1
    _ ≤ q := h2

/-- sqrtFloor computes the floor of the real square root, witnessing that
the executable model agrees with Math.floor(Math.sqrt(x)) in exact
arithmetic. -/
lemma sqrtFloor_eq_floor_real_sqrt (q : ℚ) (hq : 0 ≤ q) :
    (sqrtFloor q : ℤ) = Int.floor (Real.sqrt q) := by
  symm
  rw [Int.floor_eq_iff]
  constructor
  · have h := sqrtFloor_sq_le q hq
    have h2 : ((sqrtFloor q : ℝ)) ^ 2 ≤ (q : ℝ) := by exact_mod_cast h
    push_cast
    nlinarith [Real.sq_sqrt (show (0:ℝ) ≤ (q:ℝ) by exact_mod_cast hq),
      Real.sqrt_nonneg (q : ℝ), sq_nonneg ((sqrtFloor q : ℝ) - Real.sqrt q)]
  · have hup : q < ((sqrtFloor q : ℚ) + 1) ^ 2 := by
      have hfloor : q < (Int.floor q : ℚ) + 1 := Int.lt_floor_add_one q
      have htoNat : (Int.floor q : ℚ) ≤ ((Int.floor q).toNat : ℚ) := by
        exact_mod_cast Int.cast_le.mpr (Int.self_le_toNat (Int.floor q))
      have hsq : ((Int.floor q).toNat : ℚ) + 1 ≤ ((sqrtFloor q : ℚ) + 1) ^ 2 := by
        have hnat : (Int.floor q).toNat + 1 ≤ (Nat.sqrt (Int.floor q).toNat + 1) ^ 2 :=
          Nat.lt_succ_sqrt' (Int.floor q).toNat
        unfold sqrtFloor
        exact_mod_cast hnat
      linarith
    have hup' : (q : ℝ) < ((sqrtFloor q : ℝ) + 1) ^ 2 := by exact_mod_cast hup
    have := Real.sqrt_lt_sqrt (by exact_mod_cast hq) hup'
    calc Real.sqrt q < Real.sqrt (((sqrtFloor q : ℝ) + 1) ^ 2) := this
      _ = (sqrtFloor q : ℝ) + 1 := Real.sqrt_sq (by positivity)

/-- Evaluation rule for sqrtFloor on a bracketed rational. -/
lemma sqrtFloor_eq {q : ℚ} {k : ℕ} (h1 : ((k : ℚ) * k) ≤ q)
    (h2 : q < ((k : ℚ) + 1) * ((k : ℚ) + 1)) : sqrtFloor q = k := by
  unfold sqrtFloor
  have hq : (0:ℚ) ≤ q := le_trans (by positivity) h1
  have hk1 : ((k : ℤ) * k) ≤ Int.floor q := Int.le_floor.mpr (by push_cast; exact h1)
  have hk2 : Int.floor q < ((k : ℤ) + 1) * ((k : ℤ) + 1) :=
    Int.floor_lt.mpr (by push_cast; exact h2)
  have hnn : (0:ℤ) ≤ Int.floor q := Int.le_floor.mpr (by exact_mod_cast hq)
  have ht : ((Int.floor q).toNat : ℤ) = Int.floor q := Int.toNat_of_nonneg hnn
  refine (Nat.eq_sqrt.mpr ⟨?_, ?_⟩).symm
  · zify
    rw [ht]
    exact hk1
  · zify
    rw [ht]
    exact hk2

/-- The ceil-by-ceil candidate seats all the tiles: multiplying the two
ceiling square roots of two nonnegative factors whose product is n^2
gives at least n. -/
lemma sqrtCeil_mul_sqrtCeil_ge {q1 q2 : ℚ} {n : ℕ} (h1 : 0 ≤ q1) (h2 : 0 ≤ q2)
    (h : ((n : ℚ)) ^ 2 ≤ q1 * q2) : n ≤ sqrtCeil q1 * sqrtCeil q2 := by
  by_contra hlt
  push_neg at hlt
  have hq : ((sqrtCeil q1 * sqrtCeil q2 : ℕ) : ℚ) < (n : ℚ) := by exact_mod_cast hlt
  have a1 : q1 ≤ (sqrtCeil q1 : ℚ) ^ 2 := le_sqrtCeil_sq q1
  have a2 : q2 ≤ (sqrtCeil q2 : ℚ) ^ 2 := le_sqrtCeil_sq q2
  have c1 : (0:ℚ) ≤ (sqrtCeil q1 : ℚ) := by positivity
  have c2 : (0:ℚ) ≤ (sqrtCeil q2 : ℚ) := by positivity
  have hmul : q1 * q2 ≤ ((sqrtCeil q1 : ℚ) ^ 2) * ((sqrtCeil q2 : ℚ) ^ 2) := by
    apply mul_le_mul a1 a2 h2 (by positivity)
  have hcast : ((sqrtCeil q1 * sqrtCeil q2 : ℕ) : ℚ) = (sqrtCeil q1 : ℚ) * (sqrtCeil q2 : ℚ) := by
    push_cast
    ring
  nlinarith [hq, hmul, h, hcast]

/-- Any feasible candidate has a strictly positive scale when the container
and the tile aspect are strictly positive. -/
lemma scaleOf_pos {cw ch tw th : ℚ} (hcw : 0 < cw) (hch : 0 < ch)
    (htw : 0 < tw) (hth : 0 < th) {g : ℕ × ℕ} (h1 : 0 < g.1) (h2 : 0 < g.2) :
    0 < scaleOf cw ch tw th g := by
  have hw : 0 < cw / (g.1 : ℚ) / tw :=
    div_pos (div_pos hcw (by exact_mod_cast h1)) htw
  have hh : 0 < ch / (g.2 : ℚ) / th :=
    div_pos (div_pos hch (by exact_mod_cast h2)) hth
  unfold scaleOf candScale
  dsimp only
  split
  · exact hw
  · exact hh

section
variable {cw ch tw th : ℚ} {n : ℕ} {st : SolveState} {g : ℕ × ℕ}

lemma solveStep_of_infeasible (h : g.1 * g.2 < n) : solveStep cw ch tw th n st g = st := by
  simp only [solveStep]
  rw [if_pos h]

lemma solveStep_of_small (hf : ¬ g.1 * g.2 < n)
    (h : scaleOf cw ch tw th g < st.maxScale) : solveStep cw ch tw th n st g = st := by
  simp only [solveStep]
  rw [if_neg hf, if_pos (show (candScale cw ch tw th g).1 < st.maxScale from h)]

lemma solveStep_of_tie_more_cells (hf : ¬ g.1 * g.2 < n)
    (h1 : scaleOf cw ch tw th g = st.maxScale)
    (h2 : st.minCells.any (fun m => m < g.1 * g.2)) :
    solveStep cw ch tw th n st g = st := by
  simp only [solveStep]
  rw [if_neg hf, if_neg (show ¬ (candScale cw ch tw th g).1 < st.maxScale by
    rw [show (candScale cw ch tw th g).1 = st.maxScale from h1]; exact lt_irrefl _)]
  rw [if_pos ⟨h1, h2⟩]

lemma solveStep_replace (hf : ¬ g.1 * g.2 < n)
    (h1 : ¬ scaleOf cw ch tw th g < st.maxScale)
    (h2 : ¬ (scaleOf cw ch tw th g = st.maxScale ∧
      st.minCells.any (fun m => m < g.1 * g.2))) :
    solveStep cw ch tw th n st g =
      ⟨some (g.1 * g.2), scaleOf cw ch tw th g,
        some ⟨g.1, g.2, (candScale cw ch tw th g).2⟩⟩ := by
  simp only [solveStep]
  rw [if_neg hf, if_neg (show ¬ (candScale cw ch tw th g).1 < st.maxScale from h1),
    if_neg (show ¬ ((candScale cw ch tw th g).1 = st.maxScale ∧
      st.minCells.any (fun m => m < g.1 * g.2)) from h2)]
  rfl

end

section
variable {cw ch tw th : ℚ} {n : ℕ} {st : SolveState} {g : ℕ × ℕ}

lemma tieFilter_append {s : ℚ} {m : ℕ} (l1 l2 : List (ℕ × ℕ)) :
    tieFilter cw ch tw th n s m (l1 ++ l2) =
      tieFilter cw ch tw th n s m l1 ++ tieFilter cw ch tw th n s m l2 :=
  List.filter_append _ _

lemma tieFilter_singleton_mem {s : ℚ} {m : ℕ} (hf : n ≤ g.1 * g.2)
    (hs : scaleOf cw ch tw th g = s) (hm : g.1 * g.2 = m) :
    tieFilter cw ch tw th n s m [g] = [g] := by
  subst hs hm
  simp [tieFilter, List.filter, hf]

lemma tieFilter_singleton_not {s : ℚ} {m : ℕ}
    (h : ¬ (n ≤ g.1 * g.2 ∧ scaleOf cw ch tw th g = s ∧ g.1 * g.2 = m)) :
    tieFilter cw ch tw th n s m [g] = [] := by
  simp only [tieFilter, List.filter]
  rcases Decidable.em (n ≤ g.1 * g.2) with h1 | h1
  · rcases Decidable.em (scaleOf cw ch tw th g = s) with h2 | h2
    · rcases Decidable.em (g.1 * g.2 = m) with h3 | h3
      · exact absurd ⟨h1, h2, h3⟩ h
      · simp [h1, h2, h3]
    · simp [h1, h2]
  · simp [h1]

lemma solveStep_inv (hcw : 0 < cw) (hch : 0 < ch) (htw : 0 < tw) (hth : 0 < th)
    (hn : 1 ≤ n) (processed : List (ℕ × ℕ)) (g : ℕ × ℕ)
    (hinv : SolveInv cw ch tw th n processed st) :
    SolveInv cw ch tw th n (processed ++ [g]) (solveStep cw ch tw th n st g) := by
  by_cases hfeas : g.1 * g.2 < n
  · rw [solveStep_of_infeasible hfeas]
    rcases hinv with ⟨hst, hall⟩ | ⟨w, h, hc, hm, hs, hfe, hpos, hle, htie, hlast⟩
    · left
      refine ⟨hst, fun g' hg' => ?_⟩
      rcases List.mem_append.mp hg' with h' | h'
      · exact hall g' h'
      · have he : g' = g := by simpa using h'
        subst he; omega
    · right
      refine ⟨w, h, hc, hm, hs, hfe, hpos, ?_, ?_, ?_⟩
      · intro g' hg' hf'
        rcases List.mem_append.mp hg' with h' | h'
        · exact hle g' h' hf'
        · have he : g' = g := by simpa using h'
          subst he; omega
      · intro g' hg' hf' hs'
        rcases List.mem_append.mp hg' with h' | h'
        · exact htie g' h' hf' hs'
        · have he : g' = g := by simpa using h'
          subst he; omega
      · rw [tieFilter_append, tieFilter_singleton_not (fun hx => by omega)]
        simpa using hlast
  · have hfe_g : n ≤ g.1 * g.2 := not_lt.mp hfeas
    have hprod : 0 < g.1 * g.2 := lt_of_lt_of_le hn hfe_g
    have hg1 : 0 < g.1 := by
      rcases Nat.eq_zero_or_pos g.1 with h0 | h0
      · rw [h0] at hprod; simp at hprod
      · exact h0
    have hg2 : 0 < g.2 := by
      rcases Nat.eq_zero_or_pos g.2 with h0 | h0
      · rw [h0] at hprod; simp at hprod
      · exact h0
    have spos : 0 < scaleOf cw ch tw th g := scaleOf_pos hcw hch htw hth hg1 hg2
    rcases hinv with ⟨hst, hall⟩ | ⟨w, h, hc, hm, hs, hfe, hpos, hle, htie, hlast⟩
    · have hmax0 : st.maxScale = 0 := by rw [hst]
      have hmin0 : st.minCells = none := by rw [hst]
      rw [solveStep_replace hfeas
        (by rw [hmax0]; exact not_lt.mpr (le_of_lt spos))
        (by rw [hmin0]; rintro ⟨_, hb⟩; simp [Option.any] at hb)]
      right
      refine ⟨g.1, g.2, rfl, rfl, rfl, hfe_g, spos, ?_, ?_, ?_⟩
      · intro g' hg' hf'
        rcases List.mem_append.mp hg' with h' | h'
        · exact absurd hf' (hall g' h')
        · have he : g' = g := by simpa using h'
          subst he; exact le_refl _
      · intro g' hg' hf' _
        rcases List.mem_append.mp hg' with h' | h'
        · exact absurd hf' (hall g' h')
        · have he : g' = g := by simpa using h'
          subst he; exact le_refl _
      · rw [tieFilter_append, tieFilter_singleton_mem hfe_g rfl rfl]
        exact List.getLast?_concat _
    · by_cases hs1 : scaleOf cw ch tw th g < st.maxScale
      · rw [solveStep_of_small hfeas hs1]
        right
        refine ⟨w, h, hc, hm, hs, hfe, hpos, ?_, ?_, ?_⟩
        · intro g' hg' hf'
          rcases List.mem_append.mp hg' with h' | h'
          · exact hle g' h' hf'
          · have he : g' = g := by simpa using h'
            subst he; exact le_of_lt hs1
        · intro g' hg' hf' hs'
          rcases List.mem_append.mp hg' with h' | h'
          · exact htie g' h' hf' hs'
          · have he : g' = g := by simpa using h'
            subst he; exact absurd hs' (ne_of_lt hs1)
        · rw [tieFilter_append,
            tieFilter_singleton_not (fun hx => absurd hx.2.1 (ne_of_lt hs1))]
          simpa using hlast
      · by_cases hs2 : scaleOf cw ch tw th g = st.maxScale ∧
            st.minCells.any (fun m => m < g.1 * g.2)
        · rw [solveStep_of_tie_more_cells hfeas hs2.1 hs2.2]
          have hlt : w * h < g.1 * g.2 := by
            have hb := hs2.2
            rw [hm] at hb
            simpa using hb
          right
          refine ⟨w, h, hc, hm, hs, hfe, hpos, ?_, ?_, ?_⟩
          · intro g' hg' hf'
            rcases List.mem_append.mp hg' with h' | h'
            · exact hle g' h' hf'
            · have he : g' = g := by simpa using h'
              subst he; exact le_of_eq hs2.1
          · intro g' hg' hf' _
            rcases List.mem_append.mp hg' with h' | h'
            · exact htie g' h' hf' (by assumption)
            · have he : g' = g := by simpa using h'
              subst he; exact le_of_lt hlt
          · rw [tieFilter_append,
              tieFilter_singleton_not (fun hx => by omega)]
            simpa using hlast
        · have hMle : st.maxScale ≤ scaleOf cw ch tw th g := not_lt.mp hs1
          rw [solveStep_replace hfeas hs1 hs2]
          right
          refine ⟨g.1, g.2, rfl, rfl, rfl, hfe_g, lt_of_lt_of_le hpos hMle, ?_, ?_, ?_⟩
          · intro g' hg' hf'
            rcases List.mem_append.mp hg' with h' | h'
            · exact le_trans (hle g' h' hf') hMle
            · have he : g' = g := by simpa using h'
              subst he; exact le_refl _
          · intro g' hg' hf' hs'
            rcases List.mem_append.mp hg' with h' | h'
            · by_cases hEq : scaleOf cw ch tw th g = st.maxScale
              · have hnot : ¬ (st.minCells.any (fun m => m < g.1 * g.2) = true) :=
                  fun hb => hs2 ⟨hEq, hb⟩
                rw [hm] at hnot
                simp only [Option.any, decide_eq_true_eq] at hnot
                have hcells : g.1 * g.2 ≤ w * h := not_lt.mp hnot
                have hw : w * h ≤ g'.1 * g'.2 := htie g' h' hf' (by rw [hs', hEq])
                exact le_trans hcells hw
              · have hlt2 : st.maxScale < scaleOf cw ch tw th g :=
                  lt_of_le_of_ne hMle (fun hx => hEq hx.symm)
                have hle2 : scaleOf cw ch tw th g' ≤ st.maxScale := hle g' h' hf'
                rw [hs'] at hle2
                exact absurd hle2 (not_le.mpr hlt2)
            · have he : g' = g := by simpa using h'
              subst he; exact le_refl _
          · rw [tieFilter_append, tieFilter_singleton_mem hfe_g rfl rfl]
            exact List.getLast?_concat _

end

section
variable {cw ch tw th : ℚ} {n : ℕ}

lemma foldl_solveStep_inv (hcw : 0 < cw) (hch : 0 < ch) (htw : 0 < tw) (hth : 0 < th)
    (hn : 1 ≤ n) (l : List (ℕ × ℕ)) (processed : List (ℕ × ℕ)) (st : SolveState)
    (hinv : SolveInv cw ch tw th n processed st) :
    SolveInv cw ch tw th n (processed ++ l) (l.foldl (solveStep cw ch tw th n) st) := by
  induction l generalizing processed st with
  | nil => simpa using hinv
  | cons a t ih =>
    have h1 := solveStep_inv hcw hch htw hth hn processed a hinv
    have h2 := ih (processed ++ [a]) _ h1
    simpa [List.append_assoc] using h2

lemma calculateGrid_inv (hcw : 0 < cw) (hch : 0 < ch) (htw : 0 < tw) (hth : 0 < th)
    (hn : 1 ≤ n) :
    SolveInv cw ch tw th n (gridOptions cw ch tw th n)
      ((gridOptions cw ch tw th n).foldl (solveStep cw ch tw th n) ⟨none, 0, none⟩) := by
  have h := foldl_solveStep_inv hcw hch htw hth hn (gridOptions cw ch tw th n) [] ⟨none, 0, none⟩ (Or.inl ⟨rfl, by simp⟩)
  simpa using h

lemma calculateGrid_chosen_eq :
    (calculateGrid cw ch tw th n).chosen =
      ((gridOptions cw ch tw th n).foldl (solveStep cw ch tw th n) ⟨none, 0, none⟩).chosen :=
  rfl

lemma gridOptions_last_feasible (hcw : 0 < cw) (hch : 0 < ch) (htw : 0 < tw) (hth : 0 < th) :
    n ≤ sqrtCeil ((n : ℚ) / ((ch / th) / (cw / tw))) *
      sqrtCeil (((ch / th) / (cw / tw)) * n) := by
  have hsf : 0 < (ch / th) / (cw / tw) := div_pos (div_pos hch hth) (div_pos hcw htw)
  apply sqrtCeil_mul_sqrtCeil_ge
  · exact div_nonneg (Nat.cast_nonneg n) (le_of_lt hsf)
  · exact mul_nonneg (le_of_lt hsf) (Nat.cast_nonneg n)
  · have he : (n : ℚ) / ((ch / th) / (cw / tw)) * (((ch / th) / (cw / tw)) * n) = (n : ℚ) ^ 2 := by
      field_simp
      ring
    rw [he]

lemma ceilCeil_mem_gridOptions :
    (sqrtCeil ((n : ℚ) / ((ch / th) / (cw / tw))),
      sqrtCeil (((ch / th) / (cw / tw)) * n)) ∈ gridOptions cw ch tw th n := by
  simp [gridOptions]

lemma calculateGrid_best_choice (hcw : 0 < cw) (hch : 0 < ch) (htw : 0 < tw)
    (hth : 0 < th) (hn : 1 ≤ n) :
    ∃ w h, (calculateGrid cw ch tw th n).chosen =
        some ⟨w, h, (candScale cw ch tw th (w, h)).2⟩ ∧
      n ≤ w * h ∧
      (∀ g ∈ gridOptions cw ch tw th n, n ≤ g.1 * g.2 →
        scaleOf cw ch tw th g ≤ scaleOf cw ch tw th (w, h)) ∧
      (∀ g ∈ gridOptions cw ch tw th n, n ≤ g.1 * g.2 →
        scaleOf cw ch tw th g = scaleOf cw ch tw th (w, h) → w * h ≤ g.1 * g.2) ∧
      (tieFilter cw ch tw th n (scaleOf cw ch tw th (w, h)) (w * h)
        (gridOptions cw ch tw th n)).getLast? = some (w, h) := by
  have hinv := calculateGrid_inv hcw hch htw hth hn
  rcases hinv with ⟨hst, hall⟩ | ⟨w, h, hc, hm, hs, hfe, hpos, hle, htie, hlast⟩
  · exfalso
    have hmem := @ceilCeil_mem_gridOptions cw ch tw th n
    have hfeas := @gridOptions_last_feasible cw ch tw th n hcw hch htw hth
    exact absurd hfeas (by simpa using hall _ hmem)
  · refine ⟨w, h, ?_, hfe, ?_, ?_, ?_⟩
    · rw [calculateGrid_chosen_eq]
      exact hc
    · intro g hg hf
      have := hle g hg hf
      rwa [hs] at this
    · intro g hg hf hsg
      exact htie g hg hf (by rw [hsg, hs])
    · rw [← hs]
      exact hlast

end

lemma scaleOf_eq_min {cw ch tw th : ℚ} {g : ℕ × ℕ} :
    scaleOf cw ch tw th g = min (cw / (g.1 : ℚ) / tw) (ch / (g.2 : ℚ) / th) := by
  unfold scaleOf candScale
  dsimp only
  split
  · rename_i hlt
    exact (min_eq_left (le_of_lt hlt)).symm
  · rename_i hge
    exact (min_eq_right (not_lt.mp hge)).symm

/-- C1: for any numTiles ≥ 1 and positive container and tile-aspect
dimensions, the ceil-by-ceil candidate of calculateGrid_ seats all the
tiles, and the returned shape has at least one column, at least one row,
and at least numTiles cells. -/
theorem claim1_calculateGrid_seats_all (cw ch tw th : ℚ) (n : ℕ)
    (hcw : 0 < cw) (hch : 0 < ch) (htw : 0 < tw) (hth : 0 < th) (hn : 1 ≤ n) :
    n ≤ sqrtCeil ((n : ℚ) / ((ch / th) / (cw / tw))) *
      sqrtCeil (((ch / th) / (cw / tw)) * n) ∧
    ∃ gc : GridChoice, (calculateGrid cw ch tw th n).chosen = some gc ∧
      1 ≤ gc.gridWidthCells ∧ 1 ≤ gc.gridHeightCells ∧
      n ≤ gc.gridWidthCells * gc.gridHeightCells := by
  refine ⟨gridOptions_last_feasible hcw hch htw hth, ?_⟩
  obtain ⟨w, h, hc, hfe, -, -, -⟩ := calculateGrid_best_choice hcw hch htw hth hn
  have hw : 1 ≤ w := by
    rcases Nat.eq_zero_or_pos w with h0 | h0
    · subst h0
      simp at hfe
      omega
    · exact h0
  have hh : 1 ≤ h := by
    rcases Nat.eq_zero_or_pos h with h0 | h0
    · subst h0
      simp at hfe
      omega
    · exact h0
  exact ⟨⟨w, h, (candScale cw ch tw th (w, h)).2⟩, hc, hw, hh, hfe⟩

/-- Witness for C1 at container 800×600, tile aspect 160×120, two tiles. -/
theorem claim1_witness :
    (0:ℚ) < 800 ∧ (0:ℚ) < 600 ∧ (0:ℚ) < 160 ∧ (0:ℚ) < 120 ∧ 1 ≤ 2 ∧
    ((2 : ℕ) ≤ sqrtCeil (((2 : ℕ) : ℚ) / (((600:ℚ) / 120) / ((800:ℚ) / 160))) *
        sqrtCeil ((((600:ℚ) / 120) / ((800:ℚ) / 160)) * ((2 : ℕ) : ℚ)) ∧
      ∃ gc : GridChoice, (calculateGrid 800 600 160 120 2).chosen = some gc ∧
        1 ≤ gc.gridWidthCells ∧ 1 ≤ gc.gridHeightCells ∧
        2 ≤ gc.gridWidthCells * gc.gridHeightCells) :=
  ⟨by norm_num, by norm_num, by norm_num, by norm_num, by norm_num,
    claim1_calculateGrid_seats_all 800 600 160 120 2
      (by norm_num) (by norm_num) (by norm_num) (by norm_num) (by norm_num)⟩

/-- C2 counterexample: at container 800×600, tile aspect 160×120 and two
tiles, the first two candidates (2,1) and (1,2) are both feasible and tie
in scale and in cell count, yet the solver keeps (1,2), the
later-encountered one, not the first-encountered (2,1). -/
theorem claim2_counterexample :
    gridOptions 800 600 160 120 2 = [(2, 1), (1, 2), (2, 2)] ∧
    scaleOf 800 600 160 120 (2, 1) = scaleOf 800 600 160 120 (1, 2) ∧
    (2 ≤ 2 * 1 ∧ 2 ≤ 1 * 2) ∧
    (calculateGrid 800 600 160 120 2).chosen = some ⟨1, 2, Axis.height⟩ ∧
    ∀ ax : Axis, (calculateGrid 800 600 160 120 2).chosen ≠ some ⟨2, 1, ax⟩ := by
  have e1 : sqrtFloor 2 = 1 := sqrtFloor_eq (by norm_num) (by norm_num)
  have e2 : sqrtCeil 2 = 2 := by
    unfold sqrtCeil
    rw [e1]
    norm_num
  have hchosen : (calculateGrid 800 600 160 120 2).chosen = some ⟨1, 2, Axis.height⟩ := by
    norm_num [calculateGrid, gridOptions, e1, e2, solveStep, candScale]
  refine ⟨by norm_num [gridOptions, e1, e2], ?_, ⟨by norm_num, by norm_num⟩, hchosen, ?_⟩
  · norm_num [scaleOf, candScale]
  · intro ax hcontra
    rw [hchosen] at hcontra
    simp at hcontra

/-- C2 (amended): the chosen shape is feasible and maximizes scale among
the feasible candidates, minimizes the cell count among scale ties, and on
a full tie in both scale and cell count the last-encountered candidate in
generation order is the one kept (not the first-encountered one). -/
theorem claim2_amended_solver_optimal (cw ch tw th : ℚ) (n : ℕ)
    (hcw : 0 < cw) (hch : 0 < ch) (htw : 0 < tw) (hth : 0 < th) (hn : 1 ≤ n) :
    ∃ w h, (calculateGrid cw ch tw th n).chosen =
        some ⟨w, h, (candScale cw ch tw th (w, h)).2⟩ ∧
      n ≤ w * h ∧
      (∀ g ∈ gridOptions cw ch tw th n, n ≤ g.1 * g.2 →
        scaleOf cw ch tw th g ≤ scaleOf cw ch tw th (w, h)) ∧
      (∀ g ∈ gridOptions cw ch tw th n, n ≤ g.1 * g.2 →
        scaleOf cw ch tw th g = scaleOf cw ch tw th (w, h) → w * h ≤ g.1 * g.2) ∧
      (tieFilter cw ch tw th n (scaleOf cw ch tw th (w, h)) (w * h)
        (gridOptions cw ch tw th n)).getLast? = some (w, h) :=
  calculateGrid_best_choice hcw hch htw hth hn

/-- Witness for the amended C2 at container 800×600, tile aspect 160×120,
two tiles. -/
theorem claim2_amended_witness :
    (0:ℚ) < 800 ∧ (0:ℚ) < 600 ∧ (0:ℚ) < 160 ∧ (0:ℚ) < 120 ∧ 1 ≤ 2 ∧
    (∃ w h, (calculateGrid 800 600 160 120 2).chosen =
        some ⟨w, h, (candScale 800 600 160 120 (w, h)).2⟩ ∧
      2 ≤ w * h ∧
      (∀ g ∈ gridOptions 800 600 160 120 2, 2 ≤ g.1 * g.2 →
        scaleOf 800 600 160 120 g ≤ scaleOf 800 600 160 120 (w, h)) ∧
      (∀ g ∈ gridOptions 800 600 160 120 2, 2 ≤ g.1 * g.2 →
        scaleOf 800 600 160 120 g = scaleOf 800 600 160 120 (w, h) → w * h ≤ g.1 * g.2) ∧
      (tieFilter 800 600 160 120 2 (scaleOf 800 600 160 120 (w, h)) (w * h)
        (gridOptions 800 600 160 120 2)).getLast? = some (w, h)) :=
  ⟨by norm_num, by norm_num, by norm_num, by norm_num, by norm_num,
    claim2_amended_solver_optimal 800 600 160 120 2
      (by norm_num) (by norm_num) (by norm_num) (by norm_num) (by norm_num)⟩

lemma findMinimumResolution_eq_find (catalog : List (ℚ × ℚ)) (w h : ℚ)
    (hne : catalog ≠ []) :
    findMinimumResolution catalog w h =
      some ((catalog.find? (fun r => !(decide (r.1 < w ∧ r.2 < h)))).getD
        (catalog.getLast hne)) := by
  induction catalog with
  | nil => exact absurd rfl hne
  | cons a t ih =>
    cases t with
    | nil =>
      by_cases hc : a.1 < w ∧ a.2 < h
      · simp [findMinimumResolution, List.find?, hc]
      · simp [findMinimumResolution, List.find?, hc]
    | cons b t2 =>
      have ht2 : (b :: t2 : List (ℚ × ℚ)) ≠ [] := by simp
      by_cases hc : a.1 < w ∧ a.2 < h
      · have hpa : (!(decide (a.1 < w ∧ a.2 < h))) = false := by simp [hc]
        have hL : findMinimumResolution (a :: b :: t2) w h =
            findMinimumResolution (b :: t2) w h := by
          simp [findMinimumResolution, hc]
        have hF : (a :: b :: t2).find? (fun r => !(decide (r.1 < w ∧ r.2 < h))) =
            (b :: t2).find? (fun r => !(decide (r.1 < w ∧ r.2 < h))) := by
          simp only [List.find?]
          rw [hpa]
        have hG : (a :: b :: t2).getLast hne = (b :: t2).getLast ht2 :=
          List.getLast_cons ht2
        rw [hL, ih ht2, hF, hG]
      · have hpa : (!(decide (a.1 < w ∧ a.2 < h))) = true := by simp [hc]
        have hL : findMinimumResolution (a :: b :: t2) w h = some a := by
          simp [findMinimumResolution, hc]
        have hF : (a :: b :: t2).find? (fun r => !(decide (r.1 < w ∧ r.2 < h))) =
            some a := by
          simp only [List.find?]
          rw [hpa]
        rw [hL, hF]
        simp

lemma findMinimumResolutionLoop_eq_find (catalog : List (ℚ × ℚ)) (w h : ℚ) :
    findMinimumResolutionLoop catalog w h =
      catalog.find? (fun r => !(decide (r.1 < w ∧ r.2 < h))) := by
  induction catalog with
  | nil => rfl
  | cons a t ih =>
    by_cases hc : a.1 < w ∧ a.2 < h
    · have hpa : (!(decide (a.1 < w ∧ a.2 < h))) = false := by simp [hc]
      have hL : findMinimumResolutionLoop (a :: t) w h =
          findMinimumResolutionLoop t w h := by
        simp [findMinimumResolutionLoop, hc]
      have hF : (a :: t).find? (fun r => !(decide (r.1 < w ∧ r.2 < h))) =
          t.find? (fun r => !(decide (r.1 < w ∧ r.2 < h))) := by
        simp only [List.find?]
        rw [hpa]
      rw [hL, hF, ih]
    · have hpa : (!(decide (a.1 < w ∧ a.2 < h))) = true := by simp [hc]
      have hL : findMinimumResolutionLoop (a :: t) w h = some a := by
        simp [findMinimumResolutionLoop, hc]
      have hF : (a :: t).find? (fun r => !(decide (r.1 < w ∧ r.2 < h))) = some a := by
        simp only [List.find?]
        rw [hpa]
      rw [hL, hF]

lemma findMinimumResolutionRev2_eq_find (catalog : List (ℚ × ℚ)) (w h : ℚ)
    (hne : catalog ≠ []) :
    findMinimumResolutionRev2 catalog w h =
      some ((catalog.find? (fun r => !(decide (r.1 < w ∧ r.2 < h)))).getD
        (catalog.getLast hne)) := by
  unfold findMinimumResolutionRev2
  rw [findMinimumResolutionLoop_eq_find]
  cases hfind : catalog.find? (fun r => !(decide (r.1 < w ∧ r.2 < h))) with
  | some r => simp
  | none => simp [List.getLast?_eq_getLast_of_ne_nil hne]

/-- C3 counterexample: with the default catalog and target 100×200 there is
an entry covering the target in both dimensions, yet the function returns
(160, 120), whose height does not cover the target; so it does not return
the first entry with width ≥ w and height ≥ h. -/
theorem claim3_counterexample :
    (∃ r ∈ defaultResolutions, (100:ℚ) ≤ r.1 ∧ (200:ℚ) ≤ r.2) ∧
    findMinimumResolution defaultResolutions 100 200 = some (160, 120) ∧
    ¬ ((200 : ℚ) ≤ 120) := by
  refine ⟨⟨(320, 240), by simp [defaultResolutions], by norm_num⟩, ?_, by norm_num⟩
  simp only [findMinimumResolution, defaultResolutions]
  norm_num

/-- C3 (amended): the function returns the first entry that is not
strictly smaller than the target in both dimensions (width ≥ target width
OR height ≥ target height), falling back to the largest (last) entry when
every entry is smaller in both dimensions; a (0, 0) target yields the
smallest (first) entry. -/
theorem claim3_amended_firstNotSmaller (catalog : List (ℚ × ℚ)) (w h : ℚ)
    (hne : catalog ≠ []) :
    findMinimumResolution catalog w h =
      some ((catalog.find? (fun r => !(decide (r.1 < w ∧ r.2 < h)))).getD
        (catalog.getLast hne)) ∧
    (0 ≤ (catalog.head hne).1 →
      findMinimumResolution catalog 0 0 = some (catalog.head hne)) := by
  refine ⟨findMinimumResolution_eq_find catalog w h hne, ?_⟩
  intro hnn
  rw [findMinimumResolution_eq_find catalog 0 0 hne]
  obtain ⟨a, t, rfl⟩ := List.exists_cons_of_ne_nil hne
  simp only [List.head_cons] at hnn
  have hpa : (!(decide (a.1 < (0:ℚ) ∧ a.2 < (0:ℚ)))) = true := by
    simp only [Bool.not_eq_true', decide_eq_false_iff_not]
    intro hx
    exact absurd hnn (not_le.mpr hx.1)
  have hF : (a :: t).find? (fun r => !(decide (r.1 < (0:ℚ) ∧ r.2 < (0:ℚ)))) = some a := by
    simp only [List.find?]
    rw [hpa]
  rw [hF]
  simp

/-- Witness for the amended C3 at the default catalog with target 100×200. -/
theorem claim3_amended_witness :
    defaultResolutions ≠ [] ∧
    (findMinimumResolution defaultResolutions 100 200 =
      some ((defaultResolutions.find?
          (fun r => !(decide (r.1 < 100 ∧ r.2 < 200)))).getD
        (defaultResolutions.getLast (by simp [defaultResolutions]))) ∧
      (0 ≤ (defaultResolutions.head (by simp [defaultResolutions])).1 →
        findMinimumResolution defaultResolutions 0 0 =
          some (defaultResolutions.head (by simp [defaultResolutions])))) :=
  ⟨by simp [defaultResolutions],
    claim3_amended_firstNotSmaller defaultResolutions 100 200
      (by simp [defaultResolutions])⟩

/-- C10: the two source revisions of findMinimumResolution_ agree on every
non-empty catalog and every target; they differ only in whether the
fallback logs a message. -/
theorem claim10_revisions_agree (catalog : List (ℚ × ℚ)) (w h : ℚ)
    (hne : catalog ≠ []) :
    findMinimumResolution catalog w h = findMinimumResolutionRev2 catalog w h := by
  rw [findMinimumResolution_eq_find catalog w h hne,
    findMinimumResolutionRev2_eq_find catalog w h hne]

/-- Witness for C10 on the default catalog with target 700×500. -/
theorem claim10_witness :
    defaultResolutions ≠ [] ∧
    findMinimumResolution defaultResolutions 700 500 =
      findMinimumResolutionRev2 defaultResolutions 700 500 :=
  ⟨by simp [defaultResolutions],
    claim10_revisions_agree defaultResolutions 700 500 (by simp [defaultResolutions])⟩

lemma disableScanning_fst_selected (st : ViewState) :
    ((disableScanning st).1).selected = st.selected := by
  unfold disableScanning
  split <;> rfl

lemma setSelected_fst_selected (st : ViewState) (index : ℕ) :
    ((setSelected st index).1).selected =
      if st.selected = some index then none else some index := by
  unfold setSelected
  by_cases h1 : st.selected = some index
  · simp [h1]
  · rcases h2 : st.selected with _ | j
    · simp [h1, h2]
    · have hne : j ≠ index := by
        rintro rfl
        exact h1 h2
      simp [h1, h2, hne]

lemma setSelectedNoScan_fst (st : ViewState) (index : ℕ) :
    (setSelectedNoScan st index).1 = (disableScanning (setSelected st index).1).1 := rfl

lemma setSelectedNoScan_fst_selected (st : ViewState) (index : ℕ) :
    ((setSelectedNoScan st index).1).selected =
      if st.selected = some index then none else some index := by
  rw [setSelectedNoScan_fst, disableScanning_fst_selected, setSelected_fst_selected]

lemma scanRight_fst_selected (n : ℕ) (st : ViewState) :
    ((scanRight n st).1).selected =
      (if st.selected = some ((st.selected.getD 0 + 1) % n) then none
        else some ((st.selected.getD 0 + 1) % n)) := by
  unfold scanRight
  rw [setSelected_fst_selected]

lemma scanLeft_fst_selected (n : ℕ) (st : ViewState) :
    ((scanLeft n st).1).selected =
      (let k := match st.selected with
        | some i => if 0 < i then i - 1 else n - 1
        | none => n - 1
      if st.selected = some k then none else some k) := by
  unfold scanLeft
  rw [setSelected_fst_selected]

lemma succ_mod_ne_self {i n : ℕ} (hi : i < n) (hn : 2 ≤ n) : (i + 1) % n ≠ i := by
  rcases Nat.lt_or_ge (i + 1) n with hlt | hge
  · rw [Nat.mod_eq_of_lt hlt]
    omega
  · have hin : i + 1 = n := by omega
    rw [hin, Nat.mod_self]
    omega

/-- C4: when the full-screen and the grid-cell resolutions differ, a
tile's image request uses the full-screen resolution exactly when the
controller is scanning or the tile is the selected one, and the grid-cell
resolution otherwise. -/
theorem claim4_resolution_policy (st : ViewState) (i : ℕ)
    (hne : (st.containerImgWidthPx, st.containerImgHeightPx) ≠
      (st.imgWidthPx, st.imgHeightPx)) :
    (buildImageSize st i = (st.containerImgWidthPx, st.containerImgHeightPx) ↔
      (st.scanning = true ∨ st.selected = some i)) ∧
    (buildImageSize st i = (st.imgWidthPx, st.imgHeightPx) ↔
      ¬ (st.scanning = true ∨ st.selected = some i)) := by
  unfold buildImageSize
  by_cases hcond : st.scanning = true ∨ st.selected = some i
  · rw [if_pos hcond]
    constructor
    · exact ⟨fun _ => hcond, fun _ => rfl⟩
    · constructor
      · intro hx
        exact absurd hx hne
      · intro hx
        exact absurd hcond hx
  · rw [if_neg hcond]
    constructor
    · constructor
      · intro hx
        exact absurd hx.symm hne
      · intro hx
        exact absurd hx hcond
    · exact ⟨fun _ => hcond, fun _ => rfl⟩

/-- Witness for C4: full-screen 800×600 vs grid-cell 160×120, selected
tile 2, not scanning; tile 2 gets the full-screen pair. -/
theorem claim4_witness :
    (((800 : ℚ), (600 : ℚ)) ≠ ((160 : ℚ), (120 : ℚ))) ∧
    ((buildImageSize
        { selected := some 2, scanning := false, imgWidthPx := 160,
          imgHeightPx := 120, constraint := none, containerImgWidthPx := 800,
          containerImgHeightPx := 600, containerConstraint := none,
          gridWidthCells := 2, gridHeightCells := 2 } 2 = ((800 : ℚ), (600 : ℚ)) ↔
      (false = true ∨ (some 2 : Option ℕ) = some 2)) ∧
    (buildImageSize
        { selected := some 2, scanning := false, imgWidthPx := 160,
          imgHeightPx := 120, constraint := none, containerImgWidthPx := 800,
          containerImgHeightPx := 600, containerConstraint := none,
          gridWidthCells := 2, gridHeightCells := 2 } 2 = ((160 : ℚ), (120 : ℚ)) ↔
      ¬ (false = true ∨ (some 2 : Option ℕ) = some 2))) :=
  ⟨by norm_num, claim4_resolution_policy _ 2 (by norm_num)⟩

/-- C6 counterexample: with a single tile, scanning on and tile 0
selected, the scan tick does not set the selection to (0+1) mod 1 = 0; the
toggle in setSelected_ deselects instead. -/
theorem claim6_counterexample :
    (onScanTimer 1
        { selected := some 0, scanning := true, imgWidthPx := 0,
          imgHeightPx := 0, constraint := none, containerImgWidthPx := 0,
          containerImgHeightPx := 0, containerConstraint := none,
          gridWidthCells := 1, gridHeightCells := 1 }).1.selected = none ∧
    (none : Option ℕ) ≠ some ((0 + 1) % 1) := by
  constructor
  · decide
  · decide

/-- C6 (amended): the scan tick is a no-op unless scanning is on and a
tile is selected; with at least two tiles it advances the selection from i
to (i+1) mod numTiles; with exactly one tile it deselects, because the
advanced index equals the current one and setSelected_ toggles. -/
theorem claim6_amended_scanTimer (n : ℕ) (st : ViewState) :
    (¬ (st.scanning = true ∧ st.selected.isSome = true) → onScanTimer n st = (st, [])) ∧
    (∀ i, st.scanning = true → st.selected = some i → i < n → 2 ≤ n →
      (onScanTimer n st).1.selected = some ((i + 1) % n)) ∧
    (st.scanning = true → st.selected = some 0 → n = 1 →
      (onScanTimer n st).1.selected = none) := by
  refine ⟨?_, ?_, ?_⟩
  · intro hno
    unfold onScanTimer
    rw [if_neg (by
      intro hb
      rcases Bool.and_eq_true_iff.mp hb with ⟨h1, h2⟩
      exact hno ⟨h1, h2⟩)]
  · intro i hscan hsel hlt hn2
    unfold onScanTimer
    rw [if_pos (by rw [hscan, hsel]; rfl)]
    rw [scanRight_fst_selected, hsel]
    simp only [Option.getD_some]
    rw [if_neg (by
      intro hx
      exact succ_mod_ne_self hlt hn2 (Option.some.inj hx).symm)]
  · intro hscan hsel hone
    subst hone
    unfold onScanTimer
    rw [if_pos (by rw [hscan, hsel]; rfl)]
    rw [scanRight_fst_selected, hsel]
    simp only [Option.getD_some]
    rw [if_pos (by decide)]

/-- Witness for the amended C6: a no-op tick on a fresh controller, an
advancing tick with five tiles, and a deselecting tick with one tile. -/
theorem claim6_amended_witness :
    onScanTimer 5 initState = (initState, []) ∧
    (onScanTimer 5
        { selected := some 3, scanning := true, imgWidthPx := 0,
          imgHeightPx := 0, constraint := none, containerImgWidthPx := 0,
          containerImgHeightPx := 0, containerConstraint := none,
          gridWidthCells := 3, gridHeightCells := 2 }).1.selected =
      some ((3 + 1) % 5) :=
  ⟨(claim6_amended_scanTimer 5 initState).1 (by decide),
    (claim6_amended_scanTimer 5 _).2.1 3 rfl rfl (by decide) (by decide)⟩

lemma scanRight_scanLeft_round (n : ℕ) (hn : 1 ≤ n) (st : ViewState) (i : ℕ)
    (hi : st.selected = some i) (hlt : i < n) :
    ((scanLeft n (scanRight n st).1).1).selected = some i := by
  have h1sel : ((scanRight n st).1).selected =
      if st.selected = some ((i + 1) % n) then none else some ((i + 1) % n) := by
    rw [scanRight_fst_selected, hi]
    simp only [Option.getD_some]
  by_cases hcase : (i + 1) % n = i
  · have hn1' : n = 1 := by
      by_contra hne1
      exact succ_mod_ne_self hlt (by omega) hcase
    have hi0 : i = 0 := by omega
    have h1sel' : ((scanRight n st).1).selected = none := by
      rw [h1sel, if_pos (by rw [hi, hcase])]
    rw [scanLeft_fst_selected, h1sel']
    dsimp only
    rw [if_neg (by simp)]
    rw [hn1', hi0]

  · have h1sel' : ((scanRight n st).1).selected = some ((i + 1) % n) := by
      rw [h1sel, if_neg (by
        rw [hi]
        intro hx
        exact hcase (Option.some.inj hx).symm)]
    rw [scanLeft_fst_selected, h1sel']
    dsimp only
    by_cases hj0 : 0 < (i + 1) % n
    · have hjeq : (i + 1) % n = i + 1 := by
        rcases Nat.lt_or_ge (i + 1) n with hlt2 | hge2
        · exact Nat.mod_eq_of_lt hlt2
        · have hin : i + 1 = n := by omega
          rw [hin, Nat.mod_self] at hj0
          omega
      rw [if_pos hj0, if_neg (by
        rw [hjeq]
        intro hx
        have := Option.some.inj hx
        omega)]
      rw [hjeq]
      exact congrArg some (by omega)
    · have hin : i + 1 = n := by
        rcases Nat.lt_or_ge (i + 1) n with hlt2 | hge2
        · rw [Nat.mod_eq_of_lt hlt2] at hj0
          omega
        · omega
      have hj00 : (i + 1) % n = 0 := by
        rw [hin, Nat.mod_self]
      rw [if_neg hj0, hj00]
      have hne2 : ¬ (some 0 : Option ℕ) = some (n - 1) := by
        intro hx
        have h0 : (0 : ℕ) = n - 1 := Option.some.inj hx
        have hi0 : i = 0 := by omega
        subst hi0
        exact hcase hj00
      rw [if_neg hne2]
      exact congrArg some (by omega)

/-- C7 counterexample: with one tile, scanning active and tile 0 selected,
a timer-driven scan advance does not stay on index 0; it deselects. -/
theorem claim7_counterexample :
    (onScanTimer 1
        { selected := some 0, scanning := true, imgWidthPx := 160,
          imgHeightPx := 120, constraint := none, containerImgWidthPx := 160,
          containerImgHeightPx := 120, containerConstraint := none,
          gridWidthCells := 1, gridHeightCells := 1 }).1.selected ≠ some 0 := by
  decide

/-- C7 (amended): scanRight_ then scanLeft_ returns the selection to the
original index for numTiles in {1, 2, 5}; but with numTiles = 1 and
scanning active, a timer scan advance deselects (the selection becomes
none, not index 0) and a further advance is a no-op. -/
theorem claim7_amended_roundTrip (n : ℕ) (hn : n = 1 ∨ n = 2 ∨ n = 5)
    (st : ViewState) (i : ℕ) (hi : st.selected = some i) (hlt : i < n) :
    ((scanLeft n (scanRight n st).1).1).selected = some i ∧
    (n = 1 → st.scanning = true →
      (onScanTimer n st).1.selected = none ∧
      onScanTimer n (onScanTimer n st).1 = ((onScanTimer n st).1, [])) := by
  have hn1 : 1 ≤ n := by
    rcases hn with rfl | rfl | rfl <;> omega
  refine ⟨scanRight_scanLeft_round n hn1 st i hi hlt, ?_⟩
  rintro rfl hscan
  have hi0 : i = 0 := by omega
  subst hi0
  have hnone : (onScanTimer 1 st).1.selected = none := by
    unfold onScanTimer
    rw [if_pos (by rw [hscan, hi]; rfl)]
    rw [scanRight_fst_selected, hi]
    simp only [Option.getD_some]
    rw [if_pos (by decide)]
  refine ⟨hnone, ?_⟩
  generalize hgen : (onScanTimer 1 st).1 = st1 at hnone ⊢
  unfold onScanTimer
  rw [if_neg (by simp [hnone])]

/-- Witness for the amended C7 with one tile, scanning on, tile 0
selected. -/
theorem claim7_witness :
    (((scanLeft 1 (scanRight 1
        { selected := some 0, scanning := true, imgWidthPx := 160,
          imgHeightPx := 120, constraint := none, containerImgWidthPx := 160,
          containerImgHeightPx := 120, containerConstraint := none,
          gridWidthCells := 1, gridHeightCells := 1 }).1).1).selected = some 0) ∧
    (1 = 1 → true = true →
      (onScanTimer 1
        { selected := some 0, scanning := true, imgWidthPx := 160,
          imgHeightPx := 120, constraint := none, containerImgWidthPx := 160,
          containerImgHeightPx := 120, containerConstraint := none,
          gridWidthCells := 1, gridHeightCells := 1 }).1.selected = none ∧
      onScanTimer 1 (onScanTimer 1
        { selected := some 0, scanning := true, imgWidthPx := 160,
          imgHeightPx := 120, constraint := none, containerImgWidthPx := 160,
          containerImgHeightPx := 120, containerConstraint := none,
          gridWidthCells := 1, gridHeightCells := 1 }).1 =
        ((onScanTimer 1
        { selected := some 0, scanning := true, imgWidthPx := 160,
          imgHeightPx := 120, constraint := none, containerImgWidthPx := 160,
          containerImgHeightPx := 120, containerConstraint := none,
          gridWidthCells := 1, gridHeightCells := 1 }).1, [])) :=
  claim7_amended_roundTrip 1 (Or.inl rfl) _ 0 rfl (by decide)

/-- C8: the source maps the 0 key to tile index 10 rather than 9: with ten
tiles a 0 key press is a no-op (although index 9 exists), and with eleven
tiles it selects index 10. -/
theorem claim8_digit_zero_maps_to_index_ten :
    (onKeyPress 10 initState '0').1 = initState ∧
    (onKeyPress 10 initState '0').2 = [] ∧
    (onKeyPress 11 initState '0').1.selected = some 10 ∧
    (onKeyPress 5 initState '3').1.selected = some 2 ∧
    (onKeyPress 5 initState '3').1.scanning = false := by
  refine ⟨by decide, by decide, by decide, by decide, by decide⟩

lemma onKeyPress_preserves (n : ℕ) (hn : 1 ≤ n) (st : ViewState) (c : Char)
    (hinv : ∀ i, st.selected = some i → i < n) :
    ∀ i, ((onKeyPress n st c).1).selected = some i → i < n := by
  intro i hsel
  by_cases hd : c = '1' ∨ c = '2' ∨ c = '3' ∨ c = '4' ∨ c = '5' ∨
      c = '6' ∨ c = '7' ∨ c = '8' ∨ c = '9' ∨ c = '0'
  · simp only [onKeyPress, if_pos hd] at hsel
    by_cases hlt : (if ((c.toNat : ℤ) - 49) = -1 then (10 : ℤ) else (c.toNat : ℤ) - 49) < (n : ℤ)
    · rw [if_pos hlt, setSelectedNoScan_fst_selected] at hsel
      by_cases htog : st.selected =
          some (if ((c.toNat : ℤ) - 49) = -1 then (10 : ℤ) else (c.toNat : ℤ) - 49).toNat
      · rw [if_pos htog] at hsel
        exact absurd hsel (by simp)
      · rw [if_neg htog] at hsel
        have hi : i = (if ((c.toNat : ℤ) - 49) = -1 then (10 : ℤ)
            else (c.toNat : ℤ) - 49).toNat := (Option.some.inj hsel).symm
        subst hi
        omega
    · rw [if_neg hlt] at hsel
      exact hinv i hsel
  · rw [onKeyPress, if_neg hd] at hsel
    by_cases hs : c = 's'
    · rw [if_pos hs] at hsel
      rcases hms : st.selected with _ | j
      · rw [hms] at hsel
        simp only [] at hsel
        rw [setSelected_fst_selected] at hsel
        simp only [hms] at hsel
        rw [if_neg (by simp)] at hsel
        have : i = 0 := (Option.some.inj hsel).symm
        omega
      · rw [hms] at hsel
        simp only [] at hsel
        by_cases hb : st.scanning = true
        · rw [if_pos hb, setSelectedNoScan_fst_selected, hms] at hsel
          by_cases htog : j = i
          · exact hinv i (htog ▸ hms)
          · by_cases hji : (some j : Option ℕ) = some j
            · rw [if_pos hji] at hsel
              exact absurd hsel (by simp)
            · exact absurd rfl hji
        · rw [if_neg hb] at hsel
          simp only [] at hsel
          have hji : j = i := Option.some.inj hsel
          exact hinv i (by rw [hms, hji])
    · rw [if_neg hs] at hsel
      by_cases hsp : c = ' '
      · rw [if_pos hsp] at hsel
        exact hinv i hsel
      · rw [if_neg hsp] at hsel
        exact hinv i hsel

lemma onKeyDown_arrow_fst (n : ℕ) (st : ViewState) (j : ℕ)
    (hms : st.selected = some j) :
    ((onKeyDown n st 37).1 = (disableScanning (scanLeft n st).1).1) ∧
    ((onKeyDown n st 39).1 = (disableScanning (scanRight n st).1).1) := by
  constructor
  · simp only [onKeyDown, if_neg (by decide : ¬ (37 : ℕ) = 27), if_pos rfl, hms, if_true]
  · simp only [onKeyDown, if_neg (by decide : ¬ (39 : ℕ) = 27),
      if_neg (by decide : ¬ (39 : ℕ) = 37), if_pos rfl, hms, if_true]

lemma onKeyDown_preserves (n : ℕ) (hn : 1 ≤ n) (st : ViewState) (keyCode : ℕ)
    (hinv : ∀ i, st.selected = some i → i < n) :
    ∀ i, ((onKeyDown n st keyCode).1).selected = some i → i < n := by
  intro i hsel
  by_cases h27 : keyCode = 27
  · rw [onKeyDown, if_pos h27] at hsel
    rcases hms : st.selected with _ | j
    · rw [hms] at hsel
      exact hinv i hsel
    · rw [hms] at hsel
      simp only [] at hsel
      rw [setSelectedNoScan_fst_selected, hms] at hsel
      by_cases htog : (some j : Option ℕ) = some j
      · rw [if_pos htog] at hsel
        exact absurd hsel (by simp)
      · exact absurd rfl htog
  · rw [onKeyDown, if_neg h27] at hsel
    by_cases h37 : keyCode = 37
    · rw [if_pos h37] at hsel
      rcases hms : st.selected with _ | j
      · rw [hms] at hsel
        exact hinv i hsel
      · rw [hms] at hsel
        simp only [] at hsel
        rw [disableScanning_fst_selected, scanLeft_fst_selected, hms] at hsel
        dsimp only at hsel
        have hjn : j < n := hinv j hms
        by_cases hj0 : 0 < j
        · rw [if_pos hj0] at hsel
          by_cases htog : (some j : Option ℕ) = some (j - 1)
          · rw [if_pos htog] at hsel
            exact absurd hsel (by simp)
          · rw [if_neg htog] at hsel
            have : j - 1 = i := Option.some.inj hsel
            omega
        · rw [if_neg hj0] at hsel
          by_cases htog : (some j : Option ℕ) = some (n - 1)
          · rw [if_pos htog] at hsel
            exact absurd hsel (by simp)
          · rw [if_neg htog] at hsel
            have : n - 1 = i := Option.some.inj hsel
            omega
    · rw [if_neg h37] at hsel
      by_cases h39 : keyCode = 39
      · rw [if_pos h39] at hsel
        rcases hms : st.selected with _ | j
        · rw [hms] at hsel
          exact hinv i hsel
        · rw [hms] at hsel
          simp only [] at hsel
          rw [disableScanning_fst_selected, scanRight_fst_selected, hms] at hsel
          simp only [Option.getD_some] at hsel
          have hmod : (j + 1) % n < n := Nat.mod_lt _ (by omega)
          by_cases htog : (some j : Option ℕ) = some ((j + 1) % n)
          · rw [if_pos htog] at hsel
            exact absurd hsel (by simp)
          · rw [if_neg htog] at hsel
            have : (j + 1) % n = i := Option.some.inj hsel
            omega
      · rw [if_neg h39] at hsel
        exact hinv i hsel

lemma onScanTimer_preserves (n : ℕ) (hn : 1 ≤ n) (st : ViewState)
    (hinv : ∀ i, st.selected = some i → i < n) :
    ∀ i, ((onScanTimer n st).1).selected = some i → i < n := by
  intro i hsel
  unfold onScanTimer at hsel
  by_cases hb : (st.scanning && st.selected.isSome) = true
  · rw [if_pos hb] at hsel
    rcases hms : st.selected with _ | j
    · rw [scanRight_fst_selected, hms] at hsel
      simp only [Option.getD_none] at hsel
      by_cases htog : (none : Option ℕ) = some ((0 + 1) % n)
      · rw [if_pos htog] at hsel
        exact absurd hsel (by simp)
      · rw [if_neg htog] at hsel
        have : (0 + 1) % n = i := Option.some.inj hsel
        have hmod : (0 + 1) % n < n := Nat.mod_lt _ (by omega)
        omega
    · rw [scanRight_fst_selected, hms] at hsel
      simp only [Option.getD_some] at hsel
      have hmod : (j + 1) % n < n := Nat.mod_lt _ (by omega)
      by_cases htog : (some j : Option ℕ) = some ((j + 1) % n)
      · rw [if_pos htog] at hsel
        exact absurd hsel (by simp)
      · rw [if_neg htog] at hsel
        have : (j + 1) % n = i := Option.some.inj hsel
        omega
  · rw [if_neg hb] at hsel
    exact hinv i hsel

lemma rebuildCore_fst_selected (choice : GridChoice) (gcc : Axis)
    (resolution containerResolution : ℚ × ℚ) (st : ViewState) :
    ((rebuildCore choice gcc resolution containerResolution st).1).selected =
      st.selected := by
  unfold rebuildCore
  dsimp only
  split_ifs <;> rfl

lemma rebuildIfNeeded_fst_selected (resolutions : List (ℚ × ℚ))
    (tsw tsh : ℚ) (n : ℕ) (cw ch : ℚ) (st st' : ViewState) (effs : List Effect)
    (h : rebuildIfNeeded resolutions tsw tsh n cw ch st = some (st', effs)) :
    st'.selected = st.selected := by
  simp only [rebuildIfNeeded] at h
  split at h
  · rename_i choice resolution containerResolution hA hB hC
    have h2 := Option.some.inj h
    have hst : st' = (rebuildCore choice
        (calculateGrid cw ch tsw tsh n).containerConstraint resolution
        containerResolution st).1 := by
      rw [h2]
    rw [hst, rebuildCore_fst_selected]
  · simp at h

lemma setSelected_preserves (n : ℕ) (st : ViewState) (index : ℕ) (hidx : index < n)
    (hinv : ∀ i, st.selected = some i → i < n) :
    ∀ i, ((setSelected st index).1).selected = some i → i < n := by
  intro i hsel
  rw [setSelected_fst_selected] at hsel
  by_cases htog : st.selected = some index
  · rw [if_pos htog] at hsel
    exact absurd hsel (by simp)
  · rw [if_neg htog] at hsel
    have : index = i := Option.some.inj hsel
    omega

/-- C9: with numTiles ≥ 1, the invariant that the selected index, when
present, lies in [0, numTiles) holds in the constructor state and is
preserved by every event handler: digit, s and space key presses, the
Escape and arrow keys, pointer clicks on a tile, the scan timer tick, and
the resize-driven recompute pass. -/
theorem claim9_selected_index_invariant (resolutions : List (ℚ × ℚ))
    (tsw tsh : ℚ) (n : ℕ) (hn : 1 ≤ n) (st st' : ViewState) (effs : List Effect)
    (e : Event) (he : eventOK n e)
    (hinv : ∀ i, st.selected = some i → i < n)
    (hstep : step resolutions tsw tsh n st e = some (st', effs)) :
    (∀ i, initState.selected = some i → i < n) ∧
    (∀ i, st'.selected = some i → i < n) := by
  constructor
  · intro i hi
    exact absurd hi (by simp [initState])
  · cases e with
    | keyPress c =>
      have h2 : (st', effs) = onKeyPress n st c := (Option.some.inj hstep).symm
      have hfst : st' = (onKeyPress n st c).1 := by rw [← h2]
      rw [hfst]
      exact onKeyPress_preserves n hn st c hinv
    | keyDown k =>
      have h2 : (st', effs) = onKeyDown n st k := (Option.some.inj hstep).symm
      have hfst : st' = (onKeyDown n st k).1 := by rw [← h2]
      rw [hfst]
      exact onKeyDown_preserves n hn st k hinv
    | scanTimer =>
      have h2 : (st', effs) = onScanTimer n st := (Option.some.inj hstep).symm
      have hfst : st' = (onScanTimer n st).1 := by rw [← h2]
      rw [hfst]
      exact onScanTimer_preserves n hn st hinv
    | click i =>
      have h2 : (st', effs) = setSelected st i := (Option.some.inj hstep).symm
      have hfst : st' = (setSelected st i).1 := by rw [← h2]
      rw [hfst]
      exact setSelected_preserves n st i he hinv
    | resize w h =>
      have hsel := rebuildIfNeeded_fst_selected resolutions tsw tsh n w h st st' effs hstep
      intro i hi
      rw [hsel] at hi
      exact hinv i hi

/-- Witness for C9: a scan tick on a freshly constructed controller with
one tile and the default catalog. -/
theorem claim9_witness :
    (1 ≤ 1 ∧ eventOK 1 Event.scanTimer ∧
      (∀ i, initState.selected = some i → i < 1) ∧
      step defaultResolutions 160 120 1 initState Event.scanTimer =
        some (initState, [])) ∧
    ((∀ i, initState.selected = some i → i < 1) ∧
      (∀ i, initState.selected = some i → i < 1)) :=
  ⟨⟨le_refl 1, trivial, fun i hi => absurd hi (by simp [initState]), by decide⟩,
    claim9_selected_index_invariant defaultResolutions 160 120 1 (le_refl 1)
      initState initState [] Event.scanTimer trivial
      (fun i hi => absurd hi (by simp [initState])) (by decide)⟩

set_option maxHeartbeats 1000000 in
lemma rebuildCore_spec (choice : GridChoice) (gcc : Axis)
    (resolution containerResolution : ℚ × ℚ) (st : ViewState) :
    ((some choice.constraint = st.constraint ∧
      some gcc = st.containerConstraint ∧
      resolution.1 = st.imgWidthPx ∧ resolution.2 = st.imgHeightPx ∧
      containerResolution.1 = st.containerImgWidthPx ∧
      containerResolution.2 = st.containerImgHeightPx ∧
      choice.gridWidthCells = st.gridWidthCells ∧
      choice.gridHeightCells = st.gridHeightCells) →
      rebuildCore choice gcc resolution containerResolution st = (st, [])) ∧
    (Effect.rebuildGrid ∈ (rebuildCore choice gcc resolution containerResolution st).2 ↔
      (choice.gridWidthCells ≠ st.gridWidthCells ∨
        choice.gridHeightCells ≠ st.gridHeightCells)) ∧
    (Effect.buildImages ∈ (rebuildCore choice gcc resolution containerResolution st).2 ↔
      (resolution.1 ≠ st.imgWidthPx ∨ resolution.2 ≠ st.imgHeightPx)) ∧
    (Effect.setUpscaleRule choice.constraint false ∈
        (rebuildCore choice gcc resolution containerResolution st).2 ↔
      some choice.constraint ≠ st.constraint) ∧
    (Effect.setUpscaleRule gcc true ∈
        (rebuildCore choice gcc resolution containerResolution st).2 ↔
      some gcc ≠ st.containerConstraint) ∧
    (∀ i, Effect.buildImage i ∈
        (rebuildCore choice gcc resolution containerResolution st).2 ↔
      (st.selected = some i ∧
        (containerResolution.1 ≠ st.containerImgWidthPx ∨
          containerResolution.2 ≠ st.containerImgHeightPx))) := by
  rcases hsel : st.selected with _ | j <;>
    by_cases h1 : some choice.constraint ≠ st.constraint <;>
    by_cases h2 : some gcc ≠ st.containerConstraint <;>
    by_cases h3 : resolution.1 ≠ st.imgWidthPx ∨ resolution.2 ≠ st.imgHeightPx <;>
    by_cases h4 : containerResolution.1 ≠ st.containerImgWidthPx ∨
      containerResolution.2 ≠ st.containerImgHeightPx <;>
    by_cases h5 : choice.gridWidthCells ≠ st.gridWidthCells ∨
      choice.gridHeightCells ≠ st.gridHeightCells <;>
    simp [rebuildCore, h1, h2, h3, h4, h5, hsel] <;> tauto

/-- C5: in a recompute pass, when every recomputed derived quantity (grid
shape, both constraint flags, grid-cell resolution, full-screen
resolution) equals the cached value, the pass leaves the state unchanged
and performs no side effects; and each side effect fires exactly when its
derived quantity changed: the grid is rebuilt iff the shape changed, all
images are re-requested iff the grid-cell resolution changed, each
upscale-styling rule is set iff its constraint flag changed, and the
selected tile's image is re-requested iff the full-screen resolution
changed while a tile is selected. -/
theorem claim5_change_detection (resolutions : List (ℚ × ℚ)) (tsw tsh : ℚ)
    (n : ℕ) (cw ch : ℚ) (st st' : ViewState) (effs : List Effect)
    (choice : GridChoice) (resolution containerResolution : ℚ × ℚ)
    (hA : (calculateGrid cw ch tsw tsh n).chosen = some choice)
    (hB : findMinimumResolution resolutions
      (calculateGrid cw ch tsw tsh n).cellWidthPx
      (calculateGrid cw ch tsw tsh n).cellHeightPx = some resolution)
    (hC : findMinimumResolution resolutions cw ch = some containerResolution)
    (hstep : rebuildIfNeeded resolutions tsw tsh n cw ch st = some (st', effs)) :
    ((some choice.constraint = st.constraint ∧
      some (calculateGrid cw ch tsw tsh n).containerConstraint = st.containerConstraint ∧
      resolution.1 = st.imgWidthPx ∧ resolution.2 = st.imgHeightPx ∧
      containerResolution.1 = st.containerImgWidthPx ∧
      containerResolution.2 = st.containerImgHeightPx ∧
      choice.gridWidthCells = st.gridWidthCells ∧
      choice.gridHeightCells = st.gridHeightCells) →
      st' = st ∧ effs = []) ∧
    (Effect.rebuildGrid ∈ effs ↔
      (choice.gridWidthCells ≠ st.gridWidthCells ∨
        choice.gridHeightCells ≠ st.gridHeightCells)) ∧
    (Effect.buildImages ∈ effs ↔
      (resolution.1 ≠ st.imgWidthPx ∨ resolution.2 ≠ st.imgHeightPx)) ∧
    (Effect.setUpscaleRule choice.constraint false ∈ effs ↔
      some choice.constraint ≠ st.constraint) ∧
    (Effect.setUpscaleRule (calculateGrid cw ch tsw tsh n).containerConstraint true ∈ effs ↔
      some (calculateGrid cw ch tsw tsh n).containerConstraint ≠ st.containerConstraint) ∧
    (∀ i, Effect.buildImage i ∈ effs ↔
      (st.selected = some i ∧
        (containerResolution.1 ≠ st.containerImgWidthPx ∨
          containerResolution.2 ≠ st.containerImgHeightPx))) := by
  have hcore : rebuildCore choice (calculateGrid cw ch tsw tsh n).containerConstraint
      resolution containerResolution st = (st', effs) := by
    simp only [rebuildIfNeeded, hA, hB, hC] at hstep
    exact Option.some.inj hstep
  have hspec := rebuildCore_spec choice
    (calculateGrid cw ch tsw tsh n).containerConstraint resolution containerResolution st
  rw [hcore] at hspec
  obtain ⟨hs1, hs2, hs3, hs4, hs5, hs6⟩ := hspec
  refine ⟨?_, hs2, hs3, hs4, hs5, hs6⟩
  intro hall
  have := hs1 hall
  rw [Prod.mk.injEq] at this
  exact ⟨this.1, this.2⟩

/-- Witness for C5: a redundant recompute pass on a single 160×120 tile in
a 160×120 container with everything already cached leaves the state
untouched and fires no effects. -/
theorem claim5_witness :
    (calculateGrid 160 120 160 120 1).chosen = some ⟨1, 1, Axis.height⟩ ∧
    rebuildIfNeeded [((160:ℚ), (120:ℚ))] 160 120 1 160 120
      { selected := none, scanning := false, imgWidthPx := 160,
        imgHeightPx := 120, constraint := some Axis.height,
        containerImgWidthPx := 160, containerImgHeightPx := 120,
        containerConstraint := some Axis.height, gridWidthCells := 1,
        gridHeightCells := 1 } =
      some
        ({ selected := none, scanning := false, imgWidthPx := 160,
           imgHeightPx := 120, constraint := some Axis.height,
           containerImgWidthPx := 160, containerImgHeightPx := 120,
           containerConstraint := some Axis.height, gridWidthCells := 1,
           gridHeightCells := 1 }, []) ∧
    (Effect.rebuildGrid ∈ ([] : List Effect) ↔
      ((1 : ℕ) ≠ 1 ∨ (1 : ℕ) ≠ 1)) ∧
    (Effect.buildImages ∈ ([] : List Effect) ↔
      ((160 : ℚ) ≠ 160 ∨ (120 : ℚ) ≠ 120)) := by
  have e1 : sqrtFloor 1 = 1 := sqrtFloor_eq (by norm_num) (by norm_num)
  have e2 : sqrtCeil 1 = 1 := by
    unfold sqrtCeil
    rw [e1]
    norm_num
  have hA : (calculateGrid 160 120 160 120 1).chosen = some ⟨1, 1, Axis.height⟩ := by
    norm_num [calculateGrid, gridOptions, e1, e2, solveStep, candScale]
  have hstep : rebuildIfNeeded [((160:ℚ), (120:ℚ))] 160 120 1 160 120
      { selected := none, scanning := false, imgWidthPx := 160,
        imgHeightPx := 120, constraint := some Axis.height,
        containerImgWidthPx := 160, containerImgHeightPx := 120,
        containerConstraint := some Axis.height, gridWidthCells := 1,
        gridHeightCells := 1 } =
      some
        ({ selected := none, scanning := false, imgWidthPx := 160,
           imgHeightPx := 120, constraint := some Axis.height,
           containerImgWidthPx := 160, containerImgHeightPx := 120,
           containerConstraint := some Axis.height, gridWidthCells := 1,
           gridHeightCells := 1 }, []) := by
    simp only [rebuildIfNeeded, hA, findMinimumResolution]
    norm_num [rebuildCore, calculateGrid, gridOptions, e1, e2, solveStep, candScale]
  have happ := claim5_change_detection [((160:ℚ), (120:ℚ))] 160 120 1 160 120
    _ _ [] ⟨1, 1, Axis.height⟩ ((160 : ℚ), (120 : ℚ)) ((160 : ℚ), (120 : ℚ))
    hA rfl rfl hstep
  exact ⟨hA, hstep, happ.2.1, happ.2.2.1⟩

end CameraGrid
